import Mathlib

/-!
Verification development for the cube-builder raster merge / temporal
compositing engine (`cube_builder/utils/processing.py`).

Rasters are embedded pixelwise: every numpy operation used by the code
under study (`numpy.where`, boolean-mask indexing, `ravel_multi_index` /
`unravel_index` / `intersect1d` round-trips, masked arrays) acts
independently on each pixel position, so a raster is modelled either as a
single pixel value (`Int`) threaded through the per-scene/per-asset fold,
or as a flat `List Int` when whole-raster counts are needed
(`_qa_statistics`).  Pixel values are mathematical integers; the narrow
`uint8` accumulator of `stack_total_observation` is modelled with an
explicit `% 256`.  Fractional quantities (efficacy, cloud ratio, medians)
are modelled as rationals, with Python's `round(x, 2)` embedded as
round-half-to-even at two decimals.
-/

/-- Input mask specification dictionary, as consumed by `parse_mask`
(processing.py:1327).  `nodata` is `Option` because the source reads it
with `mask.get('nodata')`, which yields `None` when the key is absent;
`not_clear_data` and `saturated_data` model `mask.get(..., [])`. -/
structure MaskDict where
  clear_data : List Int
  not_clear_data : List Int
  saturated_data : List Int
  nodata : Option Int
  bits : Bool
  saturated_band : Option String
deriving DecidableEq

/-- Parsed mask values, the dictionary returned by `parse_mask`
(processing.py:1372-1383). -/
structure MaskValues where
  clear_data : List Int
  not_clear_data : List Int
  saturated_data : List Int
  nodata : Int
  bits : Bool
  saturated_band : Option String
deriving DecidableEq

/-- Embedding of `parse_mask` (processing.py:1327-1383): builds the parsed
mask dictionary, raising (`Except.error`) exactly when `mask.get('nodata')`
is `None`.  The `saturated_band` key is propagated only when truthy
(a non-empty string). -/
def parse_mask (m : MaskDict) : Except String MaskValues :=
  match m.nodata with
  | none => Except.error ("Expected nodata value set to compute data set statistics.")
  | some nd =>
    Except.ok ⟨m.clear_data, m.not_clear_data, m.saturated_data, nd, m.bits,
      match m.saturated_band with
      | some s => if s = "" then none else some s
      | none => none⟩

/-- Round-half-to-even on rationals, the rounding mode of Python's
built-in `round`. -/
def roundHalfEven (q : ℚ) : ℤ :=
  let n := ⌊q⌋
  let frac := q - (n : ℚ)
  if frac < 1 / 2 then n
  else if 1 / 2 < frac then n + 1
  else if n % 2 = 0 then n else n + 1

/-- Embedding of Python `round(x, 2)`. -/
def round2 (q : ℚ) : ℚ :=
  (roundHalfEven (q * 100) : ℚ) / 100

/-- Count of raster elements whose value is a member of `s`; embeds
`raster[numpy.where(numpy.isin(raster, s))].size` (processing.py:1436-1437). -/
def countIn (raster : List Int) (s : List Int) : Nat :=
  (raster.filter (fun v => v ∈ s)).length

/-- Embedding of `_qa_statistics` (processing.py:1386-1448) restricted to a
categorical mask (`mask['bits'] = False`; the bit-encoded arm calls
`get_qa_mask` from `utils/image.py`).  The raster is flattened to a list;
returns `(efficacy, cloud ratio)`. -/
def qa_statistics_cat (raster : List Int) (m : MaskValues) : ℚ × ℚ :=
  let total_pixels : ℚ := (raster.length : ℚ)
  let clear_pixels : ℚ := (countIn raster m.clear_data : ℚ)
  let not_clear_pixels : ℚ := (countIn raster m.not_clear_data : ℚ)
  let image_area : ℚ := clear_pixels + not_clear_pixels
  let cloud_cover : ℚ :=
    if image_area = 0 then 100 else round2 (100 * not_clear_pixels / image_area)
  (round2 (100 * clear_pixels / total_pixels), cloud_cover)

/-- Efficacy / cloud-ratio pair carried by a merge result
(processing.py:375-394): initialised to `(0, 100)` and recomputed by
`_qa_statistics` over the merged buffer only when the merged band is the
quality band. -/
def mergeQaStats (band quality_band : String) (raster_merge : List Int)
    (m : MaskValues) : ℚ × ℚ :=
  if band = quality_band then qa_statistics_cat raster_merge m else (0, 100)

/-- Embedding of `is_combined_collection` (processing.py:247 and 628):
more than one dataset, or more than one platform with combining enabled. -/
def is_combined_collection (datasets : List String) (platforms : List String)
    (combined : Bool) : Bool :=
  decide (datasets.length > 1) || (decide (platforms.length > 1) && combined)

/-- One asset-reconciliation step of `merge` at a fixed pixel
(processing.py:329-352).  In combined-collection mode only positions still
holding `nodata` in the accumulating buffer and valid in the incoming
reprojected raster are written (`intersect1d` of the two position sets);
otherwise every valid incoming pixel overwrites the buffer. -/
def mergeReconcilePix (is_comb : Bool) (nodata buf asset : Int) : Int :=
  if is_comb then
    if buf = nodata ∧ asset ≠ nodata then asset else buf
  else
    if asset ≠ nodata then asset else buf

/-- Accumulation of `raster_merge` at a fixed pixel over the asset list, in
asset iteration order (the `for asset in assets` loop of `merge`,
processing.py:253-352). -/
def mergeAccum (is_comb : Bool) (nodata buf : Int) (assets : List Int) : Int :=
  assets.foldl (mergeReconcilePix is_comb nodata) buf

/-- One ranked scene's contribution to `blend` at a fixed pixel: `q` the
quality raster value, `r` the band raster value, `doy` the day-of-year of
the scene's date (processing.py:783-796). -/
structure ScenePix where
  q : Int
  r : Int
  doy : Int
deriving DecidableEq

/-- Final cloud mask (`masked.mask`; `true` means not clear) for one scene
at a pixel, non-bit branch of `blend` (processing.py:810-817).  The
initial mask comes from `msrc.read(masked=True)`, which marks quality
values equal to the quality file's nodata — the mask spec's nodata, since
`merge` writes the quality raster with that nodata (processing.py:226).
The four in-place mask updates are applied in source order: not-clear,
band-raster nodata and saturated set the mask, then membership in the
clear set clears it (last write wins). -/
def computeBmask (mv : MaskValues) (nodata : Int) (q r : Int) : Bool :=
  let m0 := decide (q = mv.nodata)
  let m1 := if q ∈ mv.not_clear_data then true else m0
  let m2 := if r = nodata then true else m1
  let m3 := if q ∈ mv.saturated_data then true else m2
  if q ∈ mv.clear_data then false else m3

/-- Two's-complement wrap into the `int16` range, the effect of storing a
wider integer value into a numpy `int16` array (C-style cast). -/
def wrapInt16 (x : Int) : Int :=
  (x + 32768) % 65536 - 32768

/-- Per-pixel state threaded through the scene loop of `blend`:
`stack` the best-pixel raster value (`stack_raster`), `provenance` the
day-of-year raster value (`provenance_array`, filled with `-1`),
`notdone` the pending flag (`notdonemask`), `total` the
`stack_total_observation` counter (a `uint8`), and `entries` the per-scene
masked column of `stackMA` at the pixel, as `(mask, value)` pairs. -/
structure BlendPixState where
  stack : Int
  provenance : Int
  notdone : Bool
  total : Nat
  entries : List (Bool × Int)
deriving DecidableEq

/-- One iteration of the `for order in range(numscenes)` scene loop of
`blend` (processing.py:779-888) at a fixed pixel:
the total-observation counter is bumped where the quality value differs
from the band nodata (`copy_mask`, lines 829-833); positions still nodata
in the stack but valid in this scene are filled opportunistically with
value and day-of-year (lines 836-857); positions not yet done and clear
in this scene are overwritten with value and day-of-year (lines 862-874);
the pending mask is intersected with this scene's cloud mask (line 888).
The `stackMA` column (line 824) is appended to `entries`; `stackMA` is
allocated with dtype `int16` (line 766), so the assignment casts the band
value with two's-complement wrap (`wrapInt16`). -/
def blendStepPix (mv : MaskValues) (nodata : Int) (s : BlendPixState)
    (sc : ScenePix) : BlendPixState :=
  let bmask := computeBmask mv nodata sc.q sc.r
  let total := (s.total + (if sc.q = nodata then 0 else 1)) % 256
  let stack1 := if s.stack = nodata ∧ sc.r ≠ nodata then sc.r else s.stack
  let prov1 := if s.stack = nodata ∧ sc.r ≠ nodata then sc.doy else s.provenance
  let stack2 := if s.notdone && !bmask then sc.r else stack1
  let prov2 := if s.notdone && !bmask then sc.doy else prov1
  ⟨stack2, prov2, s.notdone && bmask, total, s.entries ++ [(bmask, wrapInt16 sc.r)]⟩

/-- Initial per-pixel blend state: stack filled with nodata
(processing.py:704), provenance filled with `-1` (line 762), pending mask
all-true (line 768), total observation zero (line 706). -/
def blendInitPix (nodata : Int) : BlendPixState :=
  ⟨nodata, -1, true, 0, []⟩

/-- Per-pixel result of the scene loop of `blend` over the ranked scenes,
in precedence order. -/
def blendPix (mv : MaskValues) (nodata : Int) (scenes : List ScenePix) :
    BlendPixState :=
  scenes.foldl (blendStepPix mv nodata) (blendInitPix nodata)

/-- Clear-observation count at a pixel: `numpy.ma.count(stackMA, axis=0)`
(processing.py:897), the number of unmasked per-scene entries. -/
def clearCount (s : BlendPixState) : Nat :=
  (s.entries.filter (fun e => !e.1)).length

/-- Values of the unmasked entries of the `stackMA` column at a pixel. -/
def unmaskedVals (entries : List (Bool × Int)) : List Int :=
  (entries.filter (fun e => !e.1)).map (fun e => e.2)

/-- Exact median of a list of integers as numpy computes it: sort, take
the middle element (odd length) or the mean of the two middle elements
(even length). -/
def npMedian (l : List Int) : ℚ :=
  let s := List.insertionSort (fun a b => a ≤ b) l
  let n := s.length
  if n = 0 then 0
  else if n % 2 = 1 then (s.getD (n / 2) 0 : ℚ)
  else ((s.getD (n / 2 - 1) 0 : ℚ) + (s.getD (n / 2) 0 : ℚ)) / 2

/-- Truncation toward zero, the behaviour of `ndarray.astype` from float
to a (sufficiently wide) integer dtype. -/
def truncRat (q : ℚ) : Int :=
  if 0 ≤ q then ⌊q⌋ else ⌈q⌉

/-- Median-composite value at a pixel (processing.py:890-894):
`numpy.ma.median` over the unmasked scene entries (already int16-wrapped
when they entered `stackMA`), with pixels whose pending mask is still set
forced to nodata; the float median is cast back by `astype`, modelled as
truncation toward zero. -/
def medianPix (nodata : Int) (s : BlendPixState) : Int :=
  if s.notdone then nodata
  else truncRat (npMedian (unmaskedVals s.entries))

/-- Ranking input of one scene of a blend activity: its dictionary key
(the date string) and the efficacy / resolution recorded by its merge
(processing.py:638-644). -/
structure SceneRank where
  key : String
  efficacy : ℚ
  resolution : ℚ
deriving DecidableEq

/-- Python `(float, str)` tuple comparison, non-strict: first components
compared numerically, ties compared by the lexicographic string order. -/
def pyTupleGe (a b : ℚ × String) : Prop :=
  b.1 < a.1 ∨ (a.1 = b.1 ∧ b.2 ≤ a.2)

instance : DecidableRel pyTupleGe := fun a b => by
  unfold pyTupleGe
  infer_instance

instance : IsTotal (ℚ × String) pyTupleGe :=
  ⟨by
    intro a b
    rcases lt_trichotomy a.1 b.1 with h | h | h
    · exact Or.inr (Or.inl h)
    · rcases le_total b.2 a.2 with hs | hs
      · exact Or.inl (Or.inr ⟨h, hs⟩)
      · exact Or.inr (Or.inr ⟨h.symm, hs⟩)
    · exact Or.inl (Or.inl h)⟩

instance : IsTrans (ℚ × String) pyTupleGe :=
  ⟨by
    intro a b c hab hbc
    rcases hab with h1 | ⟨h1, h1'⟩
    · rcases hbc with h2 | ⟨h2, h2'⟩
      · exact Or.inl (h2.trans h1)
      · exact Or.inl (h2 ▸ h1)
    · rcases hbc with h2 | ⟨h2, h2'⟩
      · exact Or.inl (by rw [h1]; exact h2)
      · exact Or.inr ⟨h1.trans h2, h2'.trans h1'⟩⟩

/-- Embedding of `sorted(mask_tuples, reverse=True)` (processing.py:654):
a stable descending sort of the `(score, key)` tuples under Python's
tuple order.  Insertion sort with the non-strict descending relation
places an element before the first strictly-smaller one, which matches
the stable semantics of Python's `sorted`. -/
def pySortedDesc (l : List (ℚ × String)) : List (ℚ × String) :=
  List.insertionSort pyTupleGe l

/-- Scene precedence order built by `blend` (processing.py:635-654): the
`(100 * efficacy / resolution, key)` tuples of the scenes, in input
order, sorted descending. -/
def blendRanking (scenes : List SceneRank) : List (ℚ × String) :=
  pySortedDesc (scenes.map (fun s => (100 * s.efficacy / s.resolution, s.key)))

/-- Truth test applied by `post_processing_quality` to each dataset name
(processing.py:488-491): a non-null name starting (case-insensitively)
with `s2` or `sentinel`. -/
def isSentinelDataset (d : Option String) : Bool :=
  match d with
  | none => false
  | some s => s.toLower.startsWith ("s2") || s.toLower.startsWith ("sentinel")

/-- Sentinel value written by `post_processing_quality` over
spectral-band nodata gaps (processing.py:487-491): `1` when any related
dataset is Sentinel-class, otherwise the quality band's nodata. -/
def saturatedValue (nodataQ : Int) (datasets : List (Option String)) : Int :=
  if datasets.any isSentinelDataset then 1 else nodataQ

/-- Per-pixel effect of one block iteration of `post_processing_quality`
(processing.py:493-516): `origQ` is the quality value, `bands` the list
of `(value, nodata)` pairs of the non-quality, non-derived bands at the
pixel.  Positions where any band equals its nodata are first overwritten
with the sentinel (lines 513-515); positions whose original quality value
equalled the quality nodata (`nodata_scl`, computed from the original
block at line 499) are then restored to nodata (line 516). -/
def ppqPixel (origQ : Int) (bands : List (Int × Int)) (nodataQ satur : Int) : Int :=
  let afterSat := if bands.any (fun br => br.1 == br.2) then satur else origQ
  if origQ = nodataQ then nodataQ else afterSat

/-- Example categorical mask configuration (the Fmask example of
processing.py:1340-1344). -/
def fmaskValues : MaskValues :=
  ⟨[0, 1], [2, 3, 4], [], 255, false, none⟩

/-! Helper lemmas. -/

lemma mergeReconcilePix_preserve (nodata buf asset : Int) (h : buf ≠ nodata) :
    mergeReconcilePix true nodata buf asset = buf := by
  simp only [mergeReconcilePix, if_true]
  rw [if_neg]
  rintro ⟨h1, -⟩
  exact h h1

lemma mergeAccum_preserve (nodata : Int) :
    ∀ (assets : List Int) (buf : Int), buf ≠ nodata →
      mergeAccum true nodata buf assets = buf := by
  intro assets
  induction assets with
  | nil => intro buf _; rfl
  | cons a rest ih =>
    intro buf hbuf
    show mergeAccum true nodata (mergeReconcilePix true nodata buf a) rest = buf
    rw [mergeReconcilePix_preserve nodata buf a hbuf]
    exact ih buf hbuf

lemma blendSteps_entries (mv : MaskValues) (nodata : Int) :
    ∀ (l : List ScenePix) (s : BlendPixState),
      (l.foldl (blendStepPix mv nodata) s).entries
        = s.entries
          ++ l.map (fun sc => (computeBmask mv nodata sc.q sc.r, wrapInt16 sc.r)) := by
  intro l
  induction l with
  | nil => intro s; simp
  | cons a rest ih =>
    intro s
    simp only [List.foldl_cons, List.map_cons]
    rw [ih]
    simp [blendStepPix]

lemma blendSteps_notdone (mv : MaskValues) (nodata : Int) :
    ∀ (l : List ScenePix) (s : BlendPixState),
      (l.foldl (blendStepPix mv nodata) s).notdone
        = (s.notdone && l.all (fun sc => computeBmask mv nodata sc.q sc.r)) := by
  intro l
  induction l with
  | nil => intro s; simp
  | cons a rest ih =>
    intro s
    simp only [List.foldl_cons, List.all_cons]
    rw [ih]
    simp only [blendStepPix]
    rw [Bool.and_assoc]

lemma blendSteps_total (mv : MaskValues) (nodata : Int) :
    ∀ (l : List ScenePix) (s : BlendPixState), s.total < 256 →
      (l.foldl (blendStepPix mv nodata) s).total
        = (s.total + l.countP (fun sc => !(sc.q == nodata))) % 256 := by
  intro l
  induction l with
  | nil =>
    intro s hs
    simp [Nat.mod_eq_of_lt hs]
  | cons a rest ih =>
    intro s hs
    have h1 : (blendStepPix mv nodata s a).total < 256 :=
      Nat.mod_lt _ (by norm_num)
    simp only [List.foldl_cons]
    rw [ih _ h1]
    have hstep : (blendStepPix mv nodata s a).total
        = (s.total + (if a.q = nodata then 0 else 1)) % 256 := rfl
    rw [hstep, Nat.mod_add_mod, List.countP_cons]
    by_cases hq : a.q = nodata
    · simp [hq]
    · simp [hq]
      congr 1
      omega

lemma blendStepPix_frozen (mv : MaskValues) (nodata : Int) (s : BlendPixState)
    (a : ScenePix) (hnd : s.notdone = false) (hst : s.stack ≠ nodata) :
    (blendStepPix mv nodata s a).stack = s.stack
      ∧ (blendStepPix mv nodata s a).provenance = s.provenance
      ∧ (blendStepPix mv nodata s a).notdone = false := by
  have hc : ¬(s.stack = nodata ∧ a.r ≠ nodata) := by
    rintro ⟨h1, -⟩
    exact hst h1
  unfold blendStepPix
  simp only [hnd, Bool.false_and, if_neg hc]
  refine ⟨?_, ?_, ?_⟩ <;> simp

lemma blendSteps_frozen (mv : MaskValues) (nodata : Int) :
    ∀ (l : List ScenePix) (s : BlendPixState),
      s.notdone = false → s.stack ≠ nodata →
      (l.foldl (blendStepPix mv nodata) s).stack = s.stack
        ∧ (l.foldl (blendStepPix mv nodata) s).provenance = s.provenance := by
  intro l
  induction l with
  | nil => intro s _ _; exact ⟨rfl, rfl⟩
  | cons a rest ih =>
    intro s hnd hst
    obtain ⟨h1, h2, h3⟩ := blendStepPix_frozen mv nodata s a hnd hst
    simp only [List.foldl_cons]
    have h4 : (blendStepPix mv nodata s a).stack ≠ nodata := by
      rw [h1]; exact hst
    obtain ⟨h5, h6⟩ := ih (blendStepPix mv nodata s a) h3 h4
    exact ⟨h5.trans h1, h6.trans h2⟩

lemma blendSteps_stack_nodata (mv : MaskValues) (nodata : Int) :
    ∀ (l : List ScenePix) (s : BlendPixState), s.stack = nodata →
      (∀ sc ∈ l, sc.r = nodata) →
      (l.foldl (blendStepPix mv nodata) s).stack = nodata := by
  intro l
  induction l with
  | nil => intro s hs _; exact hs
  | cons a rest ih =>
    intro s hs hl
    have har : a.r = nodata := hl a (List.mem_cons_self a rest)
    have hstep : (blendStepPix mv nodata s a).stack = nodata := by
      show (if (s.notdone && !(computeBmask mv nodata a.q a.r)) = true
            then a.r
            else if s.stack = nodata ∧ a.r ≠ nodata then a.r else s.stack) = nodata
      by_cases hb : (s.notdone && !(computeBmask mv nodata a.q a.r)) = true
      · rw [if_pos hb]; exact har
      · rw [if_neg hb, if_neg (by rintro ⟨-, h2⟩; exact h2 har)]; exact hs
    simp only [List.foldl_cons]
    exact ih _ hstep (fun sc hsc => hl sc (List.mem_cons_of_mem a hsc))

lemma getD_all_eq (c : Int) (l : List Int) (h : ∀ x ∈ l, x = c) (i : Nat)
    (hi : i < l.length) : l.getD i 0 = c := by
  rw [List.getD_eq_getElem l 0 hi]
  exact h _ (List.getElem_mem hi)

lemma npMedian_const (c : Int) (l : List Int) (hne : l ≠ [])
    (h : ∀ x ∈ l, x = c) : npMedian l = (c : ℚ) := by
  have hperm := List.perm_insertionSort (fun a b : Int => a ≤ b) l
  have hlen : (List.insertionSort (fun a b : Int => a ≤ b) l).length = l.length :=
    hperm.length_eq
  have hmem : ∀ x ∈ List.insertionSort (fun a b : Int => a ≤ b) l, x = c :=
    fun x hx => h x (hperm.mem_iff.mp hx)
  have hn : 0 < l.length := List.length_pos.mpr hne
  simp only [npMedian]
  have hn' : ¬((List.insertionSort (fun a b : Int => a ≤ b) l).length = 0) := by
    rw [hlen]; omega
  rw [if_neg hn']
  have hpos : 0 < (List.insertionSort (fun a b : Int => a ≤ b) l).length := by
    rw [hlen]; exact hn
  have h1 : (List.insertionSort (fun a b : Int => a ≤ b) l).length / 2
      < (List.insertionSort (fun a b : Int => a ≤ b) l).length :=
    Nat.div_lt_self hpos (by norm_num)
  by_cases hodd : (List.insertionSort (fun a b : Int => a ≤ b) l).length % 2 = 1
  · rw [if_pos hodd, getD_all_eq c _ hmem _ h1]
  · have h2 : (List.insertionSort (fun a b : Int => a ≤ b) l).length / 2 - 1
        < (List.insertionSort (fun a b : Int => a ≤ b) l).length :=
      lt_of_le_of_lt (Nat.sub_le _ _) h1
    rw [if_neg hodd, getD_all_eq c _ hmem _ h2, getD_all_eq c _ hmem _ h1,
      add_self_div_two]

lemma truncRat_intCast (c : Int) : truncRat (c : ℚ) = c := by
  simp only [truncRat]
  by_cases h : (0 : ℚ) ≤ (c : ℚ)
  · rw [if_pos h, Int.floor_intCast]
  · rw [if_neg h, Int.ceil_intCast]

/-- C8: parsing a mask specification fails (with the configuration error of
processing.py:1367-1368) exactly when the `nodata` entry is absent; when
`nodata` is present this failure cannot happen. -/
theorem parse_mask_error_iff_nodata_absent (m : MaskDict) :
    (∃ e, parse_mask m = Except.error e) ↔ m.nodata = none := by
  cases h : m.nodata with
  | none =>
    simp only [parse_mask, h]
    exact ⟨fun _ => trivial, fun _ => ⟨_, rfl⟩⟩
  | some nd =>
    simp only [parse_mask, h]
    constructor
    · rintro ⟨e, he⟩
      cases he
    · intro hc
      cases hc

/-- C2: in combined-collection mode, each asset step of `merge` writes a
pixel only when the buffer still holds `nodata` there and the incoming
asset is valid, and a buffer pixel already holding a non-nodata value is
never changed by processing any further assets. -/
theorem merge_combined_non_overwrite (datasets platforms : List String)
    (combined : Bool) (nodata : Int)
    (h : is_combined_collection datasets platforms combined = true) :
    (∀ buf asset : Int,
        mergeReconcilePix (is_combined_collection datasets platforms combined)
            nodata buf asset
          = if buf = nodata ∧ asset ≠ nodata then asset else buf)
    ∧ ∀ (assets : List Int) (buf : Int), buf ≠ nodata →
        mergeAccum (is_combined_collection datasets platforms combined)
            nodata buf assets = buf := by
  rw [h]
  exact ⟨fun _ _ => rfl, fun assets buf hbuf => mergeAccum_preserve nodata assets buf hbuf⟩

theorem merge_combined_non_overwrite_witness :
    mergeAccum (is_combined_collection (["CBERS-4", "LANDSAT-8"]) ([]) false)
      (-9999) 7 ([5, -9999, 12]) = 7 :=
  (merge_combined_non_overwrite (["CBERS-4", "LANDSAT-8"]) ([]) false (-9999)
    (by decide)).2 ([5, -9999, 12]) 7 (by decide)

/-- C10: when the merged band differs from the quality band, the merge
result carries efficacy `0` and cloud ratio `100` independently of the
raster content, and the statistics computation runs exactly when the
merged band is the quality band. -/
theorem merge_stats_only_for_quality_band (band quality_band : String)
    (raster : List Int) (m : MaskValues) (h : band ≠ quality_band) :
    mergeQaStats band quality_band raster m = (0, 100)
    ∧ ∀ (raster2 : List Int) (m2 : MaskValues),
        mergeQaStats quality_band quality_band raster2 m2 = qa_statistics_cat raster2 m2 := by
  constructor
  · simp only [mergeQaStats, if_neg h]
  · intro raster2 m2
    simp [mergeQaStats]

theorem merge_stats_only_for_quality_band_witness :
    mergeQaStats ("B04") ("SCL") ([0, 4, 4, 9]) ⟨[4, 5], [3, 8, 9], [1], 0, false, none⟩
      = (0, 100) :=
  (merge_stats_only_for_quality_band ("B04") ("SCL") ([0, 4, 4, 9])
    ⟨[4, 5], [3, 8, 9], [1], 0, false, none⟩ (by decide)).1

/-- C3: for a categorical mask, `_qa_statistics` returns
`efficacy = round(100 * clear_pixels / total_pixels, 2)` and
`cloud_ratio = 100` when `clear_pixels + not_clear_pixels = 0`, otherwise
`round(100 * not_clear_pixels / (clear_pixels + not_clear_pixels), 2)`,
the pixel classes counted by membership in the spec's clear / not-clear
sets (processing.py:1417-1448). -/
theorem qa_statistics_cat_formula (raster : List Int) (m : MaskValues)
    (h : 0 < raster.length) :
    qa_statistics_cat raster m =
      (round2 (100 * (countIn raster m.clear_data : ℚ) / (raster.length : ℚ)),
       if countIn raster m.clear_data + countIn raster m.not_clear_data = 0 then (100 : ℚ)
       else round2 (100 * (countIn raster m.not_clear_data : ℚ) /
         ((countIn raster m.clear_data : ℚ) + (countIn raster m.not_clear_data : ℚ)))) := by
  simp only [qa_statistics_cat]
  by_cases hz : countIn raster m.clear_data + countIn raster m.not_clear_data = 0
  · have hz' : (countIn raster m.clear_data : ℚ) + (countIn raster m.not_clear_data : ℚ) = 0 := by
      exact_mod_cast congrArg (Nat.cast (R := ℚ)) hz
    rw [if_pos hz', if_pos hz]
  · have hz' : ¬((countIn raster m.clear_data : ℚ) + (countIn raster m.not_clear_data : ℚ) = 0) := by
      intro hc
      exact hz (by exact_mod_cast hc)
    rw [if_neg hz', if_neg hz]

theorem qa_statistics_cat_formula_witness :
    qa_statistics_cat ([0, 2, 7]) ⟨[0, 1], [2, 3, 4], [], 255, false, none⟩ =
      (round2 (100 * ((countIn ([0, 2, 7]) [0, 1] : ℚ)) / ((3 : Nat) : ℚ)),
       if countIn ([0, 2, 7]) [0, 1] + countIn ([0, 2, 7]) [2, 3, 4] = 0 then (100 : ℚ)
       else round2 (100 * (countIn ([0, 2, 7]) [2, 3, 4] : ℚ) /
         ((countIn ([0, 2, 7]) [0, 1] : ℚ) + (countIn ([0, 2, 7]) [2, 3, 4] : ℚ)))) :=
  qa_statistics_cat_formula ([0, 2, 7]) ⟨[0, 1], [2, 3, 4], [], 255, false, none⟩ (by decide)

/-- C1 (amended): at the earliest ranked date whose pixel is classified
clear, provided that date's band value is not nodata, the best-pixel
composite receives that date's value and day-of-year, and no later-ranked
date ever changes them. -/
theorem blend_first_clear_precedence (mv : MaskValues) (nodata : Int)
    (pre post : List ScenePix) (a : ScenePix)
    (hpre : ∀ sc ∈ pre, computeBmask mv nodata sc.q sc.r = true)
    (ha : computeBmask mv nodata a.q a.r = false)
    (hr : a.r ≠ nodata) :
    (blendPix mv nodata (pre ++ a :: post)).stack = a.r
    ∧ (blendPix mv nodata (pre ++ a :: post)).provenance = a.doy := by
  have hnd0 : (pre.foldl (blendStepPix mv nodata) (blendInitPix nodata)).notdone = true := by
    rw [blendSteps_notdone]
    simp only [blendInitPix, Bool.true_and]
    exact List.all_eq_true.mpr hpre
  have hstack : (blendStepPix mv nodata
      (pre.foldl (blendStepPix mv nodata) (blendInitPix nodata)) a).stack = a.r := by
    simp [blendStepPix, ha, hnd0]
  have hprov : (blendStepPix mv nodata
      (pre.foldl (blendStepPix mv nodata) (blendInitPix nodata)) a).provenance = a.doy := by
    simp [blendStepPix, ha, hnd0]
  have hndstep : (blendStepPix mv nodata
      (pre.foldl (blendStepPix mv nodata) (blendInitPix nodata)) a).notdone = false := by
    simp [blendStepPix, ha, hnd0]
  have hfroz := blendSteps_frozen mv nodata post
    (blendStepPix mv nodata (pre.foldl (blendStepPix mv nodata) (blendInitPix nodata)) a)
    hndstep (by rw [hstack]; exact hr)
  have hkey : blendPix mv nodata (pre ++ a :: post)
      = post.foldl (blendStepPix mv nodata)
          (blendStepPix mv nodata
            (pre.foldl (blendStepPix mv nodata) (blendInitPix nodata)) a) := by
    simp [blendPix, List.foldl_append]
  rw [hkey]
  exact ⟨hfroz.1.trans hstack, hfroz.2.trans hprov⟩

theorem blend_first_clear_precedence_witness :
    (blendPix fmaskValues (-9999) ([⟨2, 7, 5⟩] ++ ⟨0, 42, 10⟩ :: [⟨0, 99, 20⟩])).stack = 42
    ∧ (blendPix fmaskValues (-9999) ([⟨2, 7, 5⟩] ++ ⟨0, 42, 10⟩ :: [⟨0, 99, 20⟩])).provenance = 10 :=
  blend_first_clear_precedence fmaskValues (-9999) ([⟨2, 7, 5⟩]) ([⟨0, 99, 20⟩]) ⟨0, 42, 10⟩
    (by decide) (by decide) (by decide)

/-- C1 counterexample: with the Fmask categorical configuration and band
nodata `-9999`, both ranked dates are classified clear at the pixel
(quality value `0`), date A preceding date B, yet the final composite
holds date B's band value `42` and day-of-year `15` — because date A's
clear fill wrote its band value `-9999` (equal to nodata) and the
opportunistic fill of date B then overwrote it. -/
theorem blend_precedence_counterexample :
    computeBmask fmaskValues (-9999) 0 (-9999) = false
    ∧ computeBmask fmaskValues (-9999) 0 42 = false
    ∧ (blendPix fmaskValues (-9999) ([⟨0, -9999, 10⟩, ⟨0, 42, 15⟩])).stack = 42
    ∧ (blendPix fmaskValues (-9999) ([⟨0, -9999, 10⟩, ⟨0, 42, 15⟩])).provenance = 15 := by
  decide

/-- C5 (amended): a pixel whose band value is nodata in every contributing
date is nodata in the best-pixel stack composite, and also in the median
composite provided the band's nodata value is representable in `int16` —
the dtype of the in-memory `stackMA` buffer (processing.py:766).  For a
wider band dtype whose nodata lies outside `int16`, the median holds the
wrapped value instead (see the counterexample). -/
theorem blend_nodata_preservation (mv : MaskValues) (nodata : Int)
    (scenes : List ScenePix) (hw : wrapInt16 nodata = nodata)
    (h : ∀ sc ∈ scenes, sc.r = nodata) :
    (blendPix mv nodata scenes).stack = nodata
    ∧ medianPix nodata (blendPix mv nodata scenes) = nodata := by
  refine ⟨blendSteps_stack_nodata mv nodata scenes (blendInitPix nodata) rfl h, ?_⟩
  unfold medianPix
  by_cases hnd : (blendPix mv nodata scenes).notdone = true
  · rw [if_pos hnd]
  · rw [if_neg hnd]
    have hentries : (blendPix mv nodata scenes).entries
        = scenes.map (fun sc => (computeBmask mv nodata sc.q sc.r, wrapInt16 sc.r)) := by
      simpa [blendPix, blendInitPix] using
        blendSteps_entries mv nodata scenes (blendInitPix nodata)
    have hvals : ∀ x ∈ unmaskedVals (blendPix mv nodata scenes).entries, x = nodata := by
      intro x hx
      simp only [unmaskedVals, List.mem_map, List.mem_filter, hentries] at hx
      obtain ⟨e, ⟨he, -⟩, hex⟩ := hx
      obtain ⟨sc, hsc, hesc⟩ := he
      rw [← hex, ← hesc]
      show wrapInt16 sc.r = nodata
      rw [h sc hsc]
      exact hw
    have hndf : (blendPix mv nodata scenes).notdone = false := by
      cases hb : (blendPix mv nodata scenes).notdone
      · rfl
      · exact absurd hb hnd
    have hall : scenes.all (fun sc => computeBmask mv nodata sc.q sc.r) = false := by
      have hn := blendSteps_notdone mv nodata scenes (blendInitPix nodata)
      rw [show (blendInitPix nodata).notdone = true from rfl, Bool.true_and] at hn
      rw [← hn]
      exact hndf
    obtain ⟨sc, hsc, hbm⟩ := List.all_eq_false.mp hall
    have hbmf : computeBmask mv nodata sc.q sc.r = false := by
      cases hb2 : computeBmask mv nodata sc.q sc.r
      · rfl
      · exact absurd hb2 hbm
    have hmem : wrapInt16 sc.r ∈ unmaskedVals (blendPix mv nodata scenes).entries := by
      simp only [unmaskedVals, List.mem_map, List.mem_filter, hentries]
      refine ⟨(computeBmask mv nodata sc.q sc.r, wrapInt16 sc.r), ⟨⟨sc, hsc, rfl⟩, ?_⟩, rfl⟩
      rw [hbmf]; rfl
    have hne : unmaskedVals (blendPix mv nodata scenes).entries ≠ [] :=
      List.ne_nil_of_mem hmem
    rw [npMedian_const nodata _ hne hvals, truncRat_intCast]

/-- C6 (amended): for every pixel, the clear-observation count is at most
the total-observation count, provided the period has at most 255 dates
(the counter is a `uint8`) and every date whose final classification at
the pixel is unmasked has a quality value different from the band's
nodata value. -/
theorem blend_clear_le_total (mv : MaskValues) (nodata : Int)
    (scenes : List ScenePix) (hlen : scenes.length ≤ 255)
    (hq : ∀ sc ∈ scenes, computeBmask mv nodata sc.q sc.r = false → sc.q ≠ nodata) :
    clearCount (blendPix mv nodata scenes) ≤ (blendPix mv nodata scenes).total := by
  have hentries : (blendPix mv nodata scenes).entries
      = scenes.map (fun sc => (computeBmask mv nodata sc.q sc.r, wrapInt16 sc.r)) := by
    simpa [blendPix, blendInitPix] using
      blendSteps_entries mv nodata scenes (blendInitPix nodata)
  have htotal : (blendPix mv nodata scenes).total
      = (scenes.countP (fun sc => !(sc.q == nodata))) % 256 := by
    simpa [blendPix, blendInitPix] using
      blendSteps_total mv nodata scenes (blendInitPix nodata) (by norm_num [blendInitPix])
  rw [htotal]
  have hcp : scenes.countP (fun sc => !(sc.q == nodata)) ≤ 255 :=
    le_trans (List.countP_le_length _) hlen
  rw [Nat.mod_eq_of_lt (by omega)]
  unfold clearCount
  rw [hentries, ← List.countP_eq_length_filter, List.countP_map]
  apply List.countP_mono_left
  intro sc hsc hp
  simp only [Function.comp, Bool.not_eq_true'] at hp
  have hne := hq sc hsc hp
  simp [hne]

/-- C6 counterexample: a single date whose quality value `0` is in the
clear set while the band's nodata value is also `0` (the band raster value
`7` is valid): the entry is unmasked, so the clear-observation count is
`1`, but `copy_mask` compares the quality value with the band nodata, so
the total-observation counter stays `0`. -/
theorem blend_clear_le_total_counterexample :
    ¬ (clearCount (blendPix fmaskValues 0 ([⟨0, 7, 10⟩]))
        ≤ (blendPix fmaskValues 0 ([⟨0, 7, 10⟩])).total) := by
  decide

/-- C7 (amended): `stack_total_observation` is incremented at a pixel
exactly when the quality raster value for the date differs from the band's
nodata value (the `copy_mask` logic of processing.py:829-833 reads the
quality block, not the band raster); over a whole blend the counter equals
the number of such dates, reduced modulo 256 (`uint8`). -/
theorem blend_total_counts_quality_valid (mv : MaskValues) (nodata : Int)
    (scenes : List ScenePix) :
    (blendPix mv nodata scenes).total
      = (scenes.countP (fun sc => !(sc.q == nodata))) % 256 := by
  simpa [blendPix, blendInitPix] using
    blendSteps_total mv nodata scenes (blendInitPix nodata) (by norm_num [blendInitPix])

/-- C7 counterexample: a date whose band raster value equals the band
nodata `-9999` while its quality value is `5`: the claim says the counter
must not be incremented (the band value is nodata), but the code
increments it because the quality value differs from `-9999`. -/
theorem blend_total_counterexample :
    (⟨5, -9999, 10⟩ : ScenePix).r = -9999
    ∧ (blendPix fmaskValues (-9999) ([⟨5, -9999, 10⟩])).total = 1 := by
  decide

/-- C4 (amended): the ranked scenes of `blend` are a permutation of the
`(100 * efficacy / resolution, key)` tuples sorted so that every earlier
entry strictly dominates every later one in the lexicographic tuple
order: either a strictly higher score, or — when the scores tie — a
strictly larger (later) date-string key.  Ties are therefore broken by
descending date key, not by original input order. -/
theorem blend_ranking_order (scenes : List SceneRank)
    (hkeys : (scenes.map SceneRank.key).Nodup) :
    (blendRanking scenes).Perm
        (scenes.map (fun s => (100 * s.efficacy / s.resolution, s.key)))
    ∧ (blendRanking scenes).Pairwise
        (fun a b => b.1 < a.1 ∨ (a.1 = b.1 ∧ b.2 < a.2)) := by
  have hperm := List.perm_insertionSort pyTupleGe
    (scenes.map (fun s => (100 * s.efficacy / s.resolution, s.key)))
  refine ⟨hperm, ?_⟩
  have hsorted : List.Sorted pyTupleGe (blendRanking scenes) :=
    List.sorted_insertionSort pyTupleGe _
  have hmap : ((scenes.map (fun s => (100 * s.efficacy / s.resolution, s.key))).map
      Prod.snd) = scenes.map SceneRank.key := by
    rw [List.map_map]
    rfl
  have hsn : ((scenes.map (fun s => (100 * s.efficacy / s.resolution, s.key))).map
      Prod.snd).Nodup := by
    rw [hmap]; exact hkeys
  have hkeys2 : ((blendRanking scenes).map Prod.snd).Nodup :=
    ((hperm.map Prod.snd).nodup_iff).mpr hsn
  have hpairNe : (blendRanking scenes).Pairwise (fun a b => a.2 ≠ b.2) :=
    List.pairwise_map.mp hkeys2
  refine (hsorted.and hpairNe).imp ?_
  intro a b hab
  obtain ⟨hge, hne⟩ := hab
  rcases hge with h1 | ⟨h2, h3⟩
  · exact Or.inl h1
  · exact Or.inr ⟨h2, lt_of_le_of_ne h3 (fun hc => hne hc.symm)⟩

theorem blend_ranking_order_witness :
    (blendRanking ([⟨"2020-01-01", 20, 10⟩, ⟨"2020-01-17", 30, 10⟩])).Perm
        (([⟨"2020-01-01", 20, 10⟩, ⟨"2020-01-17", 30, 10⟩] : List SceneRank).map
          (fun s => (100 * s.efficacy / s.resolution, s.key)))
    ∧ (blendRanking ([⟨"2020-01-01", 20, 10⟩, ⟨"2020-01-17", 30, 10⟩])).Pairwise
        (fun a b => b.1 < a.1 ∨ (a.1 = b.1 ∧ b.2 < a.2)) :=
  blend_ranking_order ([⟨"2020-01-01", 20, 10⟩, ⟨"2020-01-17", 30, 10⟩]) (by decide)

/-- C4 counterexample: two scenes with equal scores (`100 * 15 / 30 = 50`)
supplied with the earlier date first; `sorted(..., reverse=True)` compares
the `(score, key)` tuples, so the tie is broken by the larger date string,
and the later-supplied scene `2020-01-10` is processed first — not the
earlier-supplied one, as the claim's tie-break requires. -/
theorem blend_ranking_tie_counterexample :
    (([⟨"2020-01-01", 15, 30⟩, ⟨"2020-01-10", 15, 30⟩] : List SceneRank).map
        (fun s => (100 * s.efficacy / s.resolution, s.key)))
      = [(50, "2020-01-01"), (50, "2020-01-10")]
    ∧ blendRanking ([⟨"2020-01-01", 15, 30⟩, ⟨"2020-01-10", 15, 30⟩])
      = [(50, "2020-01-10"), (50, "2020-01-01")] := by
  have hmap2 : (([⟨"2020-01-01", 15, 30⟩, ⟨"2020-01-10", 15, 30⟩] : List SceneRank).map
      (fun s => (100 * s.efficacy / s.resolution, s.key)))
      = [((50 : ℚ), "2020-01-01"), ((50 : ℚ), "2020-01-10")] := by
    simp only [List.map]
    norm_num
  refine ⟨hmap2, ?_⟩
  unfold blendRanking
  rw [hmap2]
  have hcond : ¬ pyTupleGe ((50 : ℚ), "2020-01-01") ((50 : ℚ), "2020-01-10") := by
    rintro (h | ⟨-, h2⟩)
    · exact absurd h (by norm_num)
    · revert h2
      rw [String.le_iff_toList_le]
      decide
  simp only [pySortedDesc, List.insertionSort, List.orderedInsert, if_neg hcond]

/-- C9: after `post_processing_quality`, a pixel that was nodata in at
least one contributing band holds the sentinel saturated value (`1` when
any related dataset is Sentinel-class, the quality band's nodata
otherwise), except pixels whose original quality value equalled the
quality nodata, which still hold nodata; every other pixel keeps its
original quality value. -/
theorem ppq_spec (origQ : Int) (bands : List (Int × Int)) (nodataQ : Int)
    (datasets : List (Option String)) :
    (origQ = nodataQ →
        ppqPixel origQ bands nodataQ (saturatedValue nodataQ datasets) = nodataQ)
    ∧ (origQ ≠ nodataQ → (∃ br ∈ bands, br.1 = br.2) →
        ppqPixel origQ bands nodataQ (saturatedValue nodataQ datasets)
          = saturatedValue nodataQ datasets)
    ∧ (origQ ≠ nodataQ → (∀ br ∈ bands, br.1 ≠ br.2) →
        ppqPixel origQ bands nodataQ (saturatedValue nodataQ datasets) = origQ)
    ∧ (datasets.any isSentinelDataset = true → saturatedValue nodataQ datasets = 1)
    ∧ (datasets.any isSentinelDataset = false →
        saturatedValue nodataQ datasets = nodataQ) := by
  refine ⟨?_, ?_, ?_, ?_, ?_⟩
  · intro h
    simp [ppqPixel, h]
  · intro h hex
    have hany : bands.any (fun br => br.1 == br.2) = true := by
      rw [List.any_eq_true]
      obtain ⟨br, hbr, heq⟩ := hex
      exact ⟨br, hbr, by simp [heq]⟩
    simp [ppqPixel, h, hany]
  · intro h hall
    have hany : bands.any (fun br => br.1 == br.2) = false := by
      rw [List.any_eq_false]
      intro br hbr
      simp [hall br hbr]
    simp [ppqPixel, h, hany]
  · intro h
    simp [saturatedValue, h]
  · intro h
    simp [saturatedValue, h]

theorem ppq_spec_witness :
    ppqPixel 4 ([((-9999 : Int), (-9999 : Int))]) 255
        (saturatedValue 255 ([some ("S2-16D")]))
      = saturatedValue 255 ([some ("S2-16D")]) :=
  (ppq_spec 4 ([(-9999, -9999)]) 255 ([some ("S2-16D")])).2.1 (by decide)
    ⟨(-9999, -9999), by decide, rfl⟩

theorem blend_nodata_preservation_witness :
    (blendPix fmaskValues (-9999) ([⟨0, -9999, 10⟩, ⟨2, -9999, 15⟩])).stack = -9999
    ∧ medianPix (-9999)
        (blendPix fmaskValues (-9999) ([⟨0, -9999, 10⟩, ⟨2, -9999, 15⟩])) = -9999 :=
  blend_nodata_preservation fmaskValues (-9999) ([⟨0, -9999, 10⟩, ⟨2, -9999, 15⟩])
    (by decide) (by decide)

/-- C5 counterexample: an `int32` band whose nodata `-100000` lies outside
the `int16` range, with a single date that is quality-clear (quality `0`)
while its band value equals nodata.  The date is unmasked, so
`notdonemask` clears, and the median is computed from the `stackMA` entry,
which stored `-100000` int16-wrapped as `31072`: the median composite
holds `31072`, not the nodata value the claim requires (the stack
composite does stay nodata). -/
theorem blend_median_wrap_counterexample :
    (⟨0, -100000, 10⟩ : ScenePix).r = -100000
    ∧ computeBmask fmaskValues (-100000) 0 (-100000) = false
    ∧ (blendPix fmaskValues (-100000) ([⟨0, -100000, 10⟩])).stack = -100000
    ∧ medianPix (-100000)
        (blendPix fmaskValues (-100000) ([⟨0, -100000, 10⟩])) = 31072 := by
  decide

theorem blend_clear_le_total_witness :
    clearCount (blendPix fmaskValues (-9999) ([⟨0, 7, 10⟩, ⟨2, 8, 15⟩]))
      ≤ (blendPix fmaskValues (-9999) ([⟨0, 7, 10⟩, ⟨2, 8, 15⟩])).total :=
  blend_clear_le_total fmaskValues (-9999) ([⟨0, 7, 10⟩, ⟨2, 8, 15⟩])
    (by decide) (by decide)
